import Mathlib

/-!
Shallow embedding of `monitoring.py`: a report generator that runs a list of
data-collection modules, renders each module's rows as an HTML table and a
plain-text table, and concatenates the results.

Conventions of the embedding:
* Python values appearing in table cells (strings, ints, `None`) are modelled
  by the inductive type `PyVal`; Python's `str()` is `pyStr`.
* Python floats are modelled exactly.  Every float the program builds is a
  nonnegative integer divided by 1024 some number of times (`sizeof_fmt`) or
  a ratio of two byte counts (the percent columns), so each is carried as an
  exact numerator/denominator pair of naturals.  All byte counts fit far
  below 2^53, where IEEE-double division by 1024 is exact, so the fraction
  model agrees with CPython's float evaluation on every input the program
  can see; `%`-formatting's round-half-even is modelled by `rheNat`.
* Machine I/O (directory listings, `shutil.disk_usage`, `sys.platform`) is
  passed in as explicit data.
* A Python exception escaping a function is an `Except.error`.
-/

/-- A Python value that can appear in a table cell: a string, a nonnegative
integer, or `None` (the unmatched-log-group key). -/
inductive PyVal where
  | str (s : String)
  | int (n : Nat)
  | none
deriving DecidableEq, Repr

/-- Python's `str()` on a cell value (`"{}".format(item)` / `str(item)`). -/
def pyStr : PyVal → String
  | .str s => s
  | .int n => toString n
  | .none => "None"

/-- Round-half-even of the fraction `a / b`, the rounding CPython's
`%`/`format` float formatting applies.  Halves go to the even neighbour;
everything else rounds to the nearest integer. -/
def rheNat (a b : ℕ) : ℕ :=
  let q := a / b
  let r := a % b
  if 2 * r < b then q
  else if b < 2 * r then q + 1
  else if q % 2 = 0 then q else q + 1

/-- Python `"%.1f" % (a / b)` for a nonnegative fraction: one digit after
the decimal point, round-half-even. -/
def fmt1f (a b : ℕ) : String :=
  let t := rheNat (10 * a) b
  toString (t / 10) ++ "." ++ toString (t % 10)

/-- Left-pad with spaces to width 3, as `"%3.1f"` does (never triggers for
nonnegative inputs, whose shortest rendering `d.d` is already 3 wide). -/
def pad3 (s : String) : String :=
  if s.length < 3 then String.mk (List.replicate (3 - s.length) ' ') ++ s else s

/-- Python `"{:.2%}".format(a / b)` on an already-computed nonnegative
ratio `a / b`: multiply by 100, two digits after the decimal point, trailing
`%`.  The division `a / b` itself is Python's and raises
`ZeroDivisionError` on `b = 0` BEFORE any formatting happens; that error is
modelled at the call site (`DiskModule.get_data` raises on a zero-total
partition), so this formatter is only ever reached with `b ≠ 0`. -/
def fmt2pct (a b : ℕ) : String :=
  let t := rheNat (100 * 100 * a) b
  toString (t / 100) ++ "." ++ (if t % 100 < 10 then "0" else "") ++ toString (t % 100) ++ "%"

/-- `sizeof_fmt`'s loop over the unit prefixes, with the float value carried
as the exact fraction `num / d`: if the value is below 1024 format it with
the current unit (`"%3.1f %s%s"`); otherwise divide by 1024 (`d := 1024 * d`)
and move to the next unit; falling off the list formats with `Yi` and no
space (`"%.1f%s%s"`), exactly as the Python source.  The source compares
`abs(num) < 1024.0`; the values modelled are byte counts, on which `abs` is
the identity. -/
def sizeof_fmt_aux (suffix : String) : List String → ℕ → ℕ → String
  | [], num, d => fmt1f num d ++ "Yi" ++ suffix
  | u :: rest, num, d =>
    if num < 1024 * d then pad3 (fmt1f num d) ++ " " ++ u ++ suffix
    else sizeof_fmt_aux suffix rest num (1024 * d)

/-- `sizeof_fmt(num, suffix='B')` from `monitoring.py`, on a byte count. -/
def sizeof_fmt (num : ℕ) (suffix : String := "B") : String :=
  sizeof_fmt_aux suffix ["", "Ki", "Mi", "Gi", "Ti", "Pi", "Ei", "Zi"] num 1

/-- Concatenation of a list of strings, the effect of Python's repeated
`+=` over a loop. -/
def strConcat : List String → String
  | [] => ""
  | s :: rest => s ++ strConcat rest

namespace Module

/-- The loop of `Module.make_table` over the data rows, accumulating the
HTML `body` and the `plain` text.  Each line is checked against
`assert len(line) == len(cls.headers)` before being rendered; a failing
check raises (`AssertionError`), abandoning the accumulated output.  After
the last line the HTML table is closed and the trailing blank line is added
to `plain`. -/
def make_table_rows (headers : List String) :
    List (List PyVal) → String → String → Except String (String × String)
  | [], body, plain => .ok (body ++ "</tbody></table>", plain ++ "\n")
  | line :: rest, body, plain =>
    if line.length = headers.length then
      make_table_rows headers rest
        (body ++ "<tr>" ++ strConcat (line.map (fun item => "<td>" ++ pyStr item ++ "</td>")) ++ "</tr>")
        (plain ++ strConcat (line.map (fun item => pyStr item ++ ", ")) ++ "\n")
    else .error "AssertionError"

/-- `Module.make_table(data)` from `monitoring.py` (the class attributes
`cls.title` and `cls.headers` are passed explicitly): builds the HTML
heading, header row and body, and the plain rendering (title line, `=`
underline, header cells each followed by `", "`, then the data rows). -/
def make_table (title : String) (headers : List String) (data : List (List PyVal)) :
    Except String (String × String) :=
  make_table_rows headers data
    ("<h1>" ++ title ++ "</h1>" ++ "<table><thead><tr>" ++
      strConcat (headers.map (fun h => "<th>" ++ h ++ "</th>")) ++ "</tr></thead><tbody>")
    (title ++ "\n" ++ String.mk (List.replicate title.length '=') ++ "\n" ++
      strConcat (headers.map (fun h => h ++ ", ")) ++ "\n")

end Module

/-- The HTML rendering of one data row. -/
def rowBody (line : List PyVal) : String :=
  "<tr>" ++ strConcat (line.map (fun item => "<td>" ++ pyStr item ++ "</td>")) ++ "</tr>"

/-- The plain rendering of one data row: every cell stringified and followed
by `", "`, then the line terminator. -/
def rowPlain (line : List PyVal) : String :=
  strConcat (line.map (fun item => pyStr item ++ ", ")) ++ "\n"

/-- Modelled from the spec (§4.2 "plain"): the plain rendering the spec's
words describe, with header cells and row cells comma-space-JOINED
(separator between cells, none trailing).  Built only to be compared with
`Module.make_table`'s actual plain output. -/
def make_table_plain_spec (title : String) (headers : List String)
    (data : List (List PyVal)) : String :=
  title ++ "\n" ++ String.mk (List.replicate title.length '=') ++ "\n" ++
  String.intercalate ", " headers ++ "\n" ++
  strConcat (data.map (fun r => String.intercalate ", " (r.map pyStr) ++ "\n")) ++ "\n"

/-- The result of `shutil.disk_usage(part)`: total, used and free byte
counts of the filesystem holding the partition. -/
structure DiskUsage where
  total : ℕ
  used : ℕ
  free : ℕ
deriving DecidableEq, Repr

namespace DiskModule

/-- `DiskModule.get_data()`, with the configured `DISK_PARTITIONS` and their
`shutil.disk_usage` results passed in as explicit data.  The loop emits one
row per partition (`[part, sizeof_fmt(used), '', "{:.2%}" of used/total]`)
while accumulating `used`.  The division `used / total` raises
`ZeroDivisionError` at the first partition whose reported total is zero
(pseudo-filesystems such as `/proc` do report zero), discarding the rows
built so far — modelled as `Except.error "ZeroDivisionError"` whenever some
partition's total is zero.  After the loop the `TOTAL` row reads the loop
variable `disk_usage` of the LAST iteration; on an empty partition list that
name was never bound, so Python raises `NameError` when building the `TOTAL`
row (modelled as `Except.error "NameError"`).  The `TOTAL` row's own
division by the last partition's total cannot raise: a zero last total would
already have raised inside the loop. -/
def get_data (parts : List (String × DiskUsage)) : Except String (List (List PyVal)) :=
  if parts.any (fun pu => pu.2.total == 0) then .error "ZeroDivisionError"
  else
    match parts.getLast? with
    | Option.none => .error "NameError"
    | some last =>
      .ok (parts.map (fun pu =>
          [PyVal.str pu.1, PyVal.str (sizeof_fmt pu.2.used), PyVal.str "",
           PyVal.str (fmt2pct pu.2.used pu.2.total)]) ++
        [[PyVal.str "TOTAL",
          PyVal.str (sizeof_fmt ((parts.map (fun pu => pu.2.used)).sum)),
          PyVal.str (sizeof_fmt last.2.total),
          PyVal.str (fmt2pct ((parts.map (fun pu => pu.2.used)).sum) last.2.total)]])

end DiskModule

namespace LogModule

/-- `LogModule.MIN_SIZE` (class constant, configuration surface). -/
def MIN_SIZE : ℕ := 1000

/-- `LogModule.MAX_ENTRIES` (class constant, configuration surface). -/
def MAX_ENTRIES : ℕ := 10

/-- Indices `i` of `cs` at which the pattern `<any char> "log"` can end its
mandatory part: `i ≥ 1` (one character for the unescaped `.`), the three
characters starting at `i` are `log`, and every character consumed by
`(.*)` and by the unescaped dot (positions `0..i-1`) is not a newline, since
the regex dot does not match `'\n'`.  Used to model the greedy `(.*)` of
`re.match(r"(.*).log(\.[0-9])?(\.gz)?(\.bz2)?", filename)`: the greedy group
captures everything before the LAST such position (the optional suffix groups
and the missing end-anchor never constrain matchability). -/
def logStarts (cs : List Char) : List ℕ :=
  (List.range cs.length).filter
    (fun i => decide (1 ≤ i) && decide ((cs.drop i).take 3 = ['l', 'o', 'g']) &&
      (cs.take i).all (fun c => c != '\n'))

/-- `LogModule.get_base_name(filename)`: `re.match` with the pattern above,
returning group 1 on a match and `None` (here `Option.none`) otherwise. -/
def get_base_name (filename : String) : Option String :=
  match (logStarts filename.data).max? with
  | some i => some (String.mk (filename.data.take (i - 1)))
  | none => none

/-- One entry of `os.scandir(log_path)`: its name, its `stat().st_size`,
and whether it is a regular file. -/
structure DirEntry where
  name : String
  size : ℕ
  isFile : Bool
deriving DecidableEq, Repr

/-- The per-group accumulator `dict(total_size=0, file_number=0)`. -/
structure LogInfo where
  total_size : ℕ
  file_number : ℕ
deriving DecidableEq, Repr

/-- One iteration of the scandir loop on a regular file: `if not
logs.get(basename)` creates the group (the two-entry accumulator dict is
always truthy, so the test is exactly key absence); then the file's size is
added and its count bumped.  Python dicts preserve insertion order, modelled
by an association list extended at the end. -/
def addFile (logs : List (Option String × LogInfo)) (basename : Option String)
    (size : ℕ) : List (Option String × LogInfo) :=
  if logs.any (fun p => p.1 == basename) then
    logs.map (fun p => if p.1 = basename then
      (p.1, ⟨p.2.total_size + size, p.2.file_number + 1⟩) else p)
  else logs ++ [(basename, ⟨size, 1⟩)]

/-- The grouping pass of `get_data` over the directory listing: directory
entries that are not regular files are skipped. -/
def groupFiles (files : List DirEntry) : List (Option String × LogInfo) :=
  files.foldl (fun logs f =>
    if f.isFile then addFile logs (get_base_name f.name) f.size else logs) []

/-- Comparison key of `sorted(data, key=itemgetter(2))`: the group's total
byte size. -/
def sizeLe (a b : Option String × ℕ × ℕ) : Prop := a.2.2 ≤ b.2.2

instance : DecidableRel sizeLe := fun a b => Nat.decLe a.2.2 b.2.2

instance : IsTotal (Option String × ℕ × ℕ) sizeLe := ⟨fun a b => Nat.le_total a.2.2 b.2.2⟩

instance : IsTrans (Option String × ℕ × ℕ) sizeLe := ⟨fun _ _ _ => Nat.le_trans⟩

/-- The triples `(logname, file_number, total_size)` of the group rows, in
dict insertion order. -/
def groupRows (files : List DirEntry) : List (Option String × ℕ × ℕ) :=
  (groupFiles files).map (fun p => (p.1, p.2.file_number, p.2.total_size))

/-- `list(reversed(sorted(data, key=itemgetter(2))))`: stable ascending sort
on the total byte size, then reversed, i.e. descending with ties reversed.
Python's timsort-backed `sorted` is stable; it is modelled by insertion sort
with `sizeLe`, which computes the same list as every stable ascending
sort. -/
def sortedData (files : List DirEntry) : List (Option String × ℕ × ℕ) :=
  (List.insertionSort sizeLe (groupRows files)).reverse

/-- `None` keys become the cell value `None`, other keys their string. -/
def keyCell : Option String → PyVal
  | some s => PyVal.str s
  | Option.none => PyVal.none

/-- A displayed group row: `new_item` with its size humanised
(`new_item[2] = sizeof_fmt(item[2])`). -/
def humanRow (g : Option String × ℕ × ℕ) : List PyVal :=
  [keyCell g.1, PyVal.int g.2.1, PyVal.str (sizeof_fmt g.2.2)]

/-- The display loop of `get_data`: groups below `min_size` are skipped
(`continue`); once `final_data` holds `max_entries` rows the next qualifying
group stops the loop (`break`); otherwise the humanised row is appended. -/
def displayLoop (min_size max_entries : ℕ) :
    List (Option String × ℕ × ℕ) → List (List PyVal) → List (List PyVal)
  | [], acc => acc
  | g :: rest, acc =>
    if g.2.2 < min_size then displayLoop min_size max_entries rest acc
    else if max_entries ≤ acc.length then acc
    else displayLoop min_size max_entries rest (acc ++ [humanRow g])

/-- `LogModule.get_data()` with the directory listing passed in as data and
the class constants as parameters (configuration surface; the source's
defaults are `MIN_SIZE = 1000` and `MAX_ENTRIES = 10`).  The final `Total`
row sums counts and sizes over the whole sorted list `data`, not over the
truncated `final_data`. -/
def get_data (min_size max_entries : ℕ) (files : List DirEntry) : List (List PyVal) :=
  displayLoop min_size max_entries (sortedData files) [] ++
    [[PyVal.str "Total", PyVal.int (((sortedData files).map (fun it => it.2.1)).sum),
      PyVal.str (sizeof_fmt (((sortedData files).map (fun it => it.2.2)).sum))]]

/-- The displayed groups in display order: the sorted-descending list,
small groups filtered out. -/
def qualifying (min_size : ℕ) (files : List DirEntry) :
    List (Option String × ℕ × ℕ) :=
  (sortedData files).filter (fun g => !decide (g.2.2 < min_size))

end LogModule


/-- A module as the `__main__` aggregation loop sees it in one run: its
class attributes `title`, `headers`, `platforms`, and the outcome of calling
`get_data()` in this run — rows on success, or the uncaught exception it
raises. -/
structure ModuleSpec where
  title : String
  headers : List String
  platforms : List String
  get_data : Except String (List (List PyVal))

/-- A trace of one run of the `__main__` aggregation loop: the skip notices
printed, the modules whose `get_data()` result was consumed (instrumentation
recording which modules were invoked, in order), and the outcome — the
accumulated `(body, plain)` on success, or the first uncaught exception,
which in the source propagates out of `__main__` so that neither
`print(plain)` nor the e-mail delivery runs. -/
structure AggResult where
  notices : List String
  invoked : List ModuleSpec
  result : Except String (String × String)

/-- The skip diagnostic
`print("[{}] module not supported on {}".format(module.title, sys.platform))`. -/
def skipNotice (title platform : String) : String :=
  "[" ++ title ++ "] module not supported on " ++ platform

/-- The `for module in MODULES` loop of `__main__`: a supported module has
`get_data()` called and its table rendered, both `body` and `plain` growing
by `+=`; an unsupported module only prints a skip notice.  There is no
`try`/`except` anywhere in the loop, so an exception from `get_data()` (or
the `assert` inside `make_table`) aborts the whole loop at that module. -/
def aggLoop (platform : String) :
    List ModuleSpec → String → String → List String → List ModuleSpec → AggResult
  | [], body, plain, notices, invoked => ⟨notices, invoked, .ok (body, plain)⟩
  | m :: rest, body, plain, notices, invoked =>
    if platform ∈ m.platforms then
      match m.get_data with
      | .error e => ⟨notices, invoked ++ [m], .error e⟩
      | .ok rows =>
        match Module.make_table m.title m.headers rows with
        | .error e => ⟨notices, invoked ++ [m], .error e⟩
        | .ok (b, p) =>
          aggLoop platform rest (body ++ b) (plain ++ p) notices (invoked ++ [m])
    else
      aggLoop platform rest body plain (notices ++ [skipNotice m.title platform]) invoked

/-- One aggregation run: `body, plain = "", ""`, then the loop over the
registered modules. -/
def runAgg (platform : String) (modules : List ModuleSpec) : AggResult :=
  aggLoop platform modules "" "" [] []

/-- This run renders the module's section: `get_data()` returns rows and
`make_table` accepts them. -/
def moduleOk (m : ModuleSpec) : Prop :=
  ∃ rows out, m.get_data = Except.ok rows ∧
    Module.make_table m.title m.headers rows = Except.ok out

/-! ### Helper lemmas -/

@[simp] lemma strConcat_nil : strConcat [] = "" := rfl

@[simp] lemma strConcat_cons (s : String) (l : List String) :
    strConcat (s :: l) = s ++ strConcat l := rfl

lemma make_table_rows_error_iff (headers : List String) (rows : List (List PyVal)) :
    ∀ body plain, (Module.make_table_rows headers rows body plain = Except.error "AssertionError")
      ↔ ∃ r ∈ rows, r.length ≠ headers.length := by
  induction rows with
  | nil => intro body plain; simp [Module.make_table_rows]
  | cons line rest ih =>
    intro body plain
    by_cases h : line.length = headers.length
    · simp [Module.make_table_rows, h, ih]
    · simp [Module.make_table_rows, h]

lemma make_table_rows_ok (headers : List String) (rows : List (List PyVal))
    (hw : ∀ r ∈ rows, r.length = headers.length) :
    ∀ body plain, Module.make_table_rows headers rows body plain =
      Except.ok (body ++ strConcat (rows.map rowBody) ++ "</tbody></table>",
                 plain ++ strConcat (rows.map rowPlain) ++ "\n") := by
  induction rows with
  | nil => intro body plain; simp [Module.make_table_rows]
  | cons line rest ih =>
    intro body plain
    have hline : line.length = headers.length := hw line (by simp)
    have hrest : ∀ r ∈ rest, r.length = headers.length := fun r hr => hw r (by simp [hr])
    simp only [Module.make_table_rows]
    rw [if_pos hline, ih hrest]
    simp [rowBody, rowPlain, String.append_assoc]


/-- C4: the four reference equalities for base-name extraction hold:
rotation (`.N`) and compression (`.gz`/`.bz2`) suffixes are stripped, and a
prefix may itself contain dots. -/
theorem get_base_name_reference_cases :
    LogModule.get_base_name "fsck_apfs_error.log" = some "fsck_apfs_error" ∧
    LogModule.get_base_name "fsck_apfs_error.log.gz" = some "fsck_apfs_error" ∧
    LogModule.get_base_name "fsck_apfs_error.log.8.bz2" = some "fsck_apfs_error" ∧
    LogModule.get_base_name "fsck.apfs_error.log.3.gz" = some "fsck.apfs_error" := by
  refine ⟨?_, ?_, ?_, ?_⟩ <;> decide

/-- C6: the size formatter's reference values: zero bytes, one kibibyte and
one mebibyte, formatted with one decimal digit and a binary unit prefix. -/
theorem sizeof_fmt_reference_cases :
    sizeof_fmt 0 = "0.0 B" ∧ sizeof_fmt 1024 = "1.0 KiB" ∧
    sizeof_fmt (1024 * 1024) = "1.0 MiB" := by
  refine ⟨?_, ?_, ?_⟩ <;> decide

/-- C5: `make_table` raises the arity-mismatch `AssertionError` exactly when
some row's length differs from the header count, and returns rendered output
(never a truncated or padded table) when every row is well-formed. -/
theorem make_table_malformed_iff (title : String) (headers : List String)
    (rows : List (List PyVal)) :
    (Module.make_table title headers rows = Except.error "AssertionError"
      ↔ ∃ r ∈ rows, r.length ≠ headers.length) ∧
    ((∀ r ∈ rows, r.length = headers.length) →
      ∃ out, Module.make_table title headers rows = Except.ok out) := by
  constructor
  · exact make_table_rows_error_iff headers rows _ _
  · intro hw
    exact ⟨_, make_table_rows_ok headers rows hw _ _⟩

/-- Witness for C5: a row of length 2 against a single header is rejected
with the arity error, while a matching row is rendered. -/
theorem make_table_malformed_iff_witness :
    Module.make_table "T" ["a"] [[PyVal.str "x", PyVal.str "y"]] =
      Except.error "AssertionError" ∧
    ∃ out, Module.make_table "T" ["a"] [[PyVal.str "x"]] = Except.ok out :=
  ⟨(make_table_malformed_iff "T" ["a"] [[PyVal.str "x", PyVal.str "y"]]).1.mpr
      ⟨[PyVal.str "x", PyVal.str "y"], by decide, by decide⟩,
    (make_table_malformed_iff "T" ["a"] [[PyVal.str "x"]]).2 (by decide)⟩

/-- Counterexample for C8: the plain rendering is NOT comma-space-joined: the
code appends `", "` after every cell, the last included, so already on the
table with title `T`, headers `a`, `b` and single row `x`, `y` the actual
plain output (`"a, b, "` lines, trailing separator) differs from the
comma-space-joined rendering the claim describes. -/
theorem make_table_plain_not_joined :
    Module.make_table "T" ["a", "b"] [[PyVal.str "x", PyVal.str "y"]] =
      Except.ok ("<h1>T</h1><table><thead><tr><th>a</th><th>b</th></tr></thead><tbody><tr><td>x</td><td>y</td></tr></tbody></table>",
        "T\n=\na, b, \nx, y, \n\n") ∧
    make_table_plain_spec "T" ["a", "b"] [[PyVal.str "x", PyVal.str "y"]] =
      "T\n=\na, b\nx, y\n\n" ∧
    decide (("T\n=\na, b, \nx, y, \n\n" : String) = "T\n=\na, b\nx, y\n\n") = false := by
  refine ⟨by rfl, by decide, by decide⟩

/-- C8 as amended: for well-formed rows the plain output is the title line,
the `=`-underline, one header line made of exactly `len(headers)` cells each
followed by `", "`, one terminated line per data row made of exactly
`len(headers)` stringified cells each followed by `", "`, and a trailing
blank line. -/
theorem make_table_plain_shape (title : String) (headers : List String)
    (rows : List (List PyVal)) (hw : ∀ r ∈ rows, r.length = headers.length) :
    (∃ body, Module.make_table title headers rows =
      Except.ok (body,
        title ++ "\n" ++ String.mk (List.replicate title.length '=') ++ "\n" ++
        strConcat (headers.map (fun h => h ++ ", ")) ++ "\n" ++
        strConcat (rows.map rowPlain) ++ "\n")) ∧
    (headers.map (fun h => h ++ ", ")).length = headers.length ∧
    (∀ r ∈ rows, (r.map (fun item => pyStr item ++ ", ")).length = headers.length) := by
  refine ⟨⟨"<h1>" ++ title ++ "</h1>" ++ "<table><thead><tr>" ++
      strConcat (headers.map (fun h => "<th>" ++ h ++ "</th>")) ++ "</tr></thead><tbody>" ++
      strConcat (rows.map rowBody) ++ "</tbody></table>", ?_⟩,
    by simp, fun r hr => by simp [hw r hr]⟩
  rw [Module.make_table, make_table_rows_ok headers rows hw]

lemma disk_any_zero_false (parts : List (String × DiskUsage))
    (hz : ∀ pu ∈ parts, pu.2.total ≠ 0) :
    parts.any (fun pu => pu.2.total == 0) = false := by
  rw [List.any_eq_false]
  intro pu hpu
  simpa using hz pu hpu

/-- Counterexample for C7: the claim's row shape does not hold of EVERY
non-empty partition list — a partition whose reported total is zero (as
pseudo-filesystems such as `/proc` report) makes the per-partition percent
division raise `ZeroDivisionError`, so this non-empty list produces an error
instead of ending with a `TOTAL` row. -/
theorem disk_zero_total_cex :
    DiskModule.get_data [("/proc", ⟨0, 0, 0⟩), ("/", ⟨1000, 500, 500⟩)] =
      Except.error "ZeroDivisionError" := rfl

/-- C7 as amended: on a non-empty partition list all of whose reported
totals are nonzero (so no percent division raises), `DiskModule.get_data`
returns one row `[path, human-size used, '', percent-of-partition]` per
partition followed by a final `TOTAL` row whose used column is the human
size of the summed used bytes, whose capacity column is the human size of
the LAST partition's total, and whose percent column is that sum over the
last partition's total, formatted with two decimals and a trailing percent
sign. -/
theorem disk_get_data_shape (parts : List (String × DiskUsage)) (h : parts ≠ [])
    (hz : ∀ pu ∈ parts, pu.2.total ≠ 0) :
    DiskModule.get_data parts =
      Except.ok (parts.map (fun pu =>
          [PyVal.str pu.1, PyVal.str (sizeof_fmt pu.2.used), PyVal.str "",
           PyVal.str (fmt2pct pu.2.used pu.2.total)]) ++
        [[PyVal.str "TOTAL",
          PyVal.str (sizeof_fmt ((parts.map (fun pu => pu.2.used)).sum)),
          PyVal.str (sizeof_fmt (parts.getLast h).2.total),
          PyVal.str (fmt2pct ((parts.map (fun pu => pu.2.used)).sum)
            (parts.getLast h).2.total)]]) := by
  rw [DiskModule.get_data, disk_any_zero_false parts hz, if_neg Bool.false_ne_true,
    List.getLast?_eq_getLast parts h]

/-- Witness for C7 on a single 1000-byte partition with 500 bytes used. -/
theorem disk_get_data_shape_witness :
    DiskModule.get_data [("/", ⟨1000, 500, 500⟩)] =
      Except.ok [[PyVal.str "/", PyVal.str "500.0 B", PyVal.str "", PyVal.str "50.00%"],
                 [PyVal.str "TOTAL", PyVal.str "500.0 B", PyVal.str "1000.0 B",
                  PyVal.str "50.00%"]] := by
  rw [disk_get_data_shape [("/", ⟨1000, 500, 500⟩)] (by decide) (by decide)]
  rfl

/-- Counterexample for C10: non-emptiness is NOT what makes the operation
total — this non-empty singleton list still fails, because its partition
reports a zero total and the percent division raises `ZeroDivisionError`
inside the loop. -/
theorem disk_nonempty_still_fails_cex :
    DiskModule.get_data [("/sys", ⟨0, 5, 0⟩)] =
      Except.error "ZeroDivisionError" := rfl

/-- C10 as amended: on an empty partition list, building the `TOTAL` row
dereferences the never-bound loop variable, so `get_data` raises (an error
branch is reached) instead of returning a table; but non-emptiness alone
does not make the operation total — a zero-total partition also raises,
inside the loop — and the success branch is reached exactly when the list is
non-empty and every partition's reported total is nonzero. -/
theorem disk_get_data_empty_fails :
    DiskModule.get_data [] = Except.error "NameError" ∧
    ∀ parts : List (String × DiskUsage), parts ≠ [] →
      (∀ pu ∈ parts, pu.2.total ≠ 0) →
      ∃ rows, DiskModule.get_data parts = Except.ok rows := by
  refine ⟨rfl, fun parts h hz =>
    ⟨_, by rw [DiskModule.get_data, disk_any_zero_false parts hz,
      if_neg Bool.false_ne_true, List.getLast?_eq_getLast parts h]⟩⟩

/-- Witness for C10's success conjunct on a concrete non-empty list with a
nonzero total. -/
theorem disk_get_data_empty_fails_witness :
    ∃ rows, DiskModule.get_data [("/data", ⟨2048, 1024, 1024⟩)] = Except.ok rows :=
  disk_get_data_empty_fails.2 [("/data", ⟨2048, 1024, 1024⟩)] (by decide) (by decide)

/-- Witness for C8's amended theorem at a concrete table. -/
theorem make_table_plain_shape_witness :
    ∃ body, Module.make_table "T" ["a", "b"] [[PyVal.str "x", PyVal.str "y"]] =
      Except.ok (body,
        "T" ++ "\n" ++ String.mk (List.replicate ("T".length) '=') ++ "\n" ++
        strConcat (["a", "b"].map (fun h => h ++ ", ")) ++ "\n" ++
        strConcat ([[PyVal.str "x", PyVal.str "y"]].map rowPlain) ++ "\n") :=
  (make_table_plain_shape "T" ["a", "b"] [[PyVal.str "x", PyVal.str "y"]]
    (by decide)).1

lemma displayLoop_eq (minS maxE : ℕ) (l : List (Option String × ℕ × ℕ)) :
    ∀ acc : List (List PyVal), acc.length ≤ maxE →
      LogModule.displayLoop minS maxE l acc =
        acc ++ ((l.filter (fun g => !decide (g.2.2 < minS))).take (maxE - acc.length)).map
          LogModule.humanRow := by
  induction l with
  | nil => intro acc h; simp [LogModule.displayLoop]
  | cons g rest ih =>
    intro acc h
    by_cases hs : g.2.2 < minS
    · simp [LogModule.displayLoop, hs, ih acc h]
    · by_cases hf : maxE ≤ acc.length
      · have hlen : acc.length = maxE := Nat.le_antisymm h hf
        simp [LogModule.displayLoop, hs, hf, hlen]
      · have h1 : (acc ++ [LogModule.humanRow g]).length ≤ maxE := by
          simp only [List.length_append, List.length_cons, List.length_nil]
          omega
        have hstep : LogModule.displayLoop minS maxE (g :: rest) acc =
            LogModule.displayLoop minS maxE rest (acc ++ [LogModule.humanRow g]) := by
          simp [LogModule.displayLoop, hs, hf]
        rw [hstep, ih _ h1]
        have h2 : maxE - acc.length = (maxE - (acc.length + 1)) + 1 := by omega
        simp [List.filter_cons, hs, h2, List.take_succ_cons]

lemma sortedData_perm (files : List LogModule.DirEntry) :
    List.Perm (LogModule.sortedData files) (LogModule.groupRows files) :=
  (List.reverse_perm _).trans (List.perm_insertionSort _ _)

lemma sortedData_pairwise (files : List LogModule.DirEntry) :
    (LogModule.sortedData files).Pairwise (fun x y => y.2.2 ≤ x.2.2) := by
  refine List.pairwise_reverse.mpr ?_
  have h := List.sorted_insertionSort LogModule.sizeLe (LogModule.groupRows files)
  exact h.imp (fun hab => hab)

lemma qualifying_length (minS : ℕ) (files : List LogModule.DirEntry) :
    (LogModule.qualifying minS files).length =
      ((LogModule.groupFiles files).filter
        (fun p => !decide (p.2.total_size < minS))).length := by
  have hp := (sortedData_perm files).filter (fun g => !decide (g.2.2 < minS))
  rw [LogModule.qualifying, hp.length_eq, LogModule.groupRows, List.filter_map,
    List.length_map]
  rfl

/-- C2: for every directory state and every configuration of the threshold
and the entry limit, `LogModule.get_data` ends with a `Total` row whose file
count is the sum of file counts over ALL groups and whose size is
`sizeof_fmt` of the sum of byte sizes over ALL groups — the `Total`
expression mentions neither `min_size` nor `max_entries` nor the displayed
prefix, so the grand totals are independent of the display truncation and
include the groups dropped by the threshold or cut off by the limit. -/
theorem log_total_row (min_size max_entries : ℕ) (files : List LogModule.DirEntry) :
    ∃ disp, LogModule.get_data min_size max_entries files =
      disp ++ [[PyVal.str "Total",
        PyVal.int (((LogModule.groupFiles files).map (fun p => p.2.file_number)).sum),
        PyVal.str (sizeof_fmt
          (((LogModule.groupFiles files).map (fun p => p.2.total_size)).sum))]] := by
  refine ⟨LogModule.displayLoop min_size max_entries (LogModule.sortedData files) [], ?_⟩
  rw [LogModule.get_data]
  have hperm := sortedData_perm files
  have h1 : ((LogModule.sortedData files).map (fun it => it.2.1)).sum =
      ((LogModule.groupFiles files).map (fun p => p.2.file_number)).sum := by
    rw [(hperm.map (fun it => it.2.1)).sum_eq, LogModule.groupRows, List.map_map]
    rfl
  have h2 : ((LogModule.sortedData files).map (fun it => it.2.2)).sum =
      ((LogModule.groupFiles files).map (fun p => p.2.total_size)).sum := by
    rw [(hperm.map (fun it => it.2.2)).sum_eq, LogModule.groupRows, List.map_map]
    rfl
  rw [h1, h2]

/-- C3: the displayed rows of `LogModule.get_data` are exactly the first
`max_entries` groups of the descending-sorted list after dropping the groups
below `min_size` (filtering after sorting and before the cutoff); when more
groups than `max_entries` qualify, exactly `max_entries` rows precede the
`Total` row; and every displayed group's size is at least every undisplayed
qualifying group's size (the displayed groups are the largest). -/
theorem log_threshold_truncation (min_size max_entries : ℕ)
    (files : List LogModule.DirEntry) :
    (LogModule.get_data min_size max_entries files =
      ((LogModule.qualifying min_size files).take max_entries).map LogModule.humanRow ++
      [[PyVal.str "Total",
        PyVal.int (((LogModule.sortedData files).map (fun it => it.2.1)).sum),
        PyVal.str (sizeof_fmt (((LogModule.sortedData files).map (fun it => it.2.2)).sum))]]) ∧
    (max_entries < ((LogModule.groupFiles files).filter
        (fun p => !decide (p.2.total_size < min_size))).length →
      (((LogModule.qualifying min_size files).take max_entries).map
        LogModule.humanRow).length = max_entries) ∧
    (∀ x ∈ (LogModule.qualifying min_size files).take max_entries,
     ∀ y ∈ (LogModule.qualifying min_size files).drop max_entries, y.2.2 ≤ x.2.2) := by
  refine ⟨?_, ?_, ?_⟩
  · rw [LogModule.get_data, displayLoop_eq min_size max_entries _ [] (Nat.zero_le _)]
    simp [LogModule.qualifying]
  · intro hlt
    rw [List.length_map, List.length_take]
    have hq := qualifying_length min_size files
    omega
  · intro x hx y hy
    have hpw2 := (sortedData_pairwise files).filter
      (fun g : Option String × ℕ × ℕ => !decide (g.2.2 < min_size))
    rw [← List.take_append_drop max_entries
      (List.filter (fun g => !decide (g.2.2 < min_size)) (LogModule.sortedData files))]
      at hpw2
    obtain ⟨-, -, hcross⟩ := List.pairwise_append.mp hpw2
    exact hcross x hx y hy

/-- Witness for C3: with threshold 1 and limit 1, two one-file groups of
sizes 5 and 7 both qualify, and exactly one row is displayed. -/
theorem log_threshold_truncation_witness :
    (((LogModule.qualifying 1 [⟨"a.log", 5, true⟩, ⟨"b.log", 7, true⟩]).take 1).map
      LogModule.humanRow).length = 1 :=
  (log_threshold_truncation 1 1 [⟨"a.log", 5, true⟩, ⟨"b.log", 7, true⟩]).2.1
    (by decide)

lemma aggLoop_cons_skip (platform : String) (m0 : ModuleSpec) (rest : List ModuleSpec)
    (body plain : String) (notices : List String) (invoked : List ModuleSpec)
    (hp : platform ∉ m0.platforms) :
    aggLoop platform (m0 :: rest) body plain notices invoked =
      aggLoop platform rest body plain
        (notices ++ [skipNotice m0.title platform]) invoked := by
  rw [aggLoop, if_neg hp]

lemma aggLoop_cons_error (platform : String) (m0 : ModuleSpec) (rest : List ModuleSpec)
    (body plain : String) (notices : List String) (invoked : List ModuleSpec)
    (e : String) (hp : platform ∈ m0.platforms) (he : m0.get_data = Except.error e) :
    aggLoop platform (m0 :: rest) body plain notices invoked =
      ⟨notices, invoked ++ [m0], Except.error e⟩ := by
  rw [aggLoop, if_pos hp, he]

lemma aggLoop_cons_assert (platform : String) (m0 : ModuleSpec) (rest : List ModuleSpec)
    (body plain : String) (notices : List String) (invoked : List ModuleSpec)
    (rows : List (List PyVal)) (e : String) (hp : platform ∈ m0.platforms)
    (hgd : m0.get_data = Except.ok rows)
    (hmt : Module.make_table m0.title m0.headers rows = Except.error e) :
    aggLoop platform (m0 :: rest) body plain notices invoked =
      ⟨notices, invoked ++ [m0], Except.error e⟩ := by
  rw [aggLoop, if_pos hp, hgd]
  dsimp only
  rw [hmt]

lemma aggLoop_cons_ok (platform : String) (m0 : ModuleSpec) (rest : List ModuleSpec)
    (body plain : String) (notices : List String) (invoked : List ModuleSpec)
    (rows : List (List PyVal)) (out : String × String) (hp : platform ∈ m0.platforms)
    (hgd : m0.get_data = Except.ok rows)
    (hmt : Module.make_table m0.title m0.headers rows = Except.ok out) :
    aggLoop platform (m0 :: rest) body plain notices invoked =
      aggLoop platform rest (body ++ out.1) (plain ++ out.2) notices
        (invoked ++ [m0]) := by
  rw [aggLoop, if_pos hp, hgd]
  dsimp only
  rw [hmt]

lemma aggLoop_invoked_mem (platform : String) (mods : List ModuleSpec) :
    ∀ (body plain : String) (notices : List String) (invoked : List ModuleSpec)
      (m : ModuleSpec),
      m ∈ (aggLoop platform mods body plain notices invoked).invoked →
      m ∈ invoked ∨ (m ∈ mods ∧ platform ∈ m.platforms) := by
  induction mods with
  | nil => intro body plain notices invoked m hm; simp [aggLoop] at hm; exact Or.inl hm
  | cons m0 rest ih =>
    intro body plain notices invoked m hm
    by_cases hp : platform ∈ m0.platforms
    · cases hgd : m0.get_data with
      | error e =>
        rw [aggLoop_cons_error platform m0 rest body plain notices invoked e hp hgd] at hm
        simp only [List.mem_append, List.mem_singleton] at hm
        rcases hm with h | h
        · exact Or.inl h
        · exact Or.inr ⟨by simp [h], h ▸ hp⟩
      | ok rows =>
        cases hmt : Module.make_table m0.title m0.headers rows with
        | error e =>
          rw [aggLoop_cons_assert platform m0 rest body plain notices invoked
            rows e hp hgd hmt] at hm
          simp only [List.mem_append, List.mem_singleton] at hm
          rcases hm with h | h
          · exact Or.inl h
          · exact Or.inr ⟨by simp [h], h ▸ hp⟩
        | ok out =>
          rw [aggLoop_cons_ok platform m0 rest body plain notices invoked
            rows out hp hgd hmt] at hm
          rcases ih _ _ _ _ _ hm with h | ⟨h1, h2⟩
          · simp only [List.mem_append, List.mem_singleton] at h
            rcases h with h | h
            · exact Or.inl h
            · exact Or.inr ⟨by simp [h], h ▸ hp⟩
          · exact Or.inr ⟨by simp [h1], h2⟩
    · rw [aggLoop_cons_skip platform m0 rest body plain notices invoked hp] at hm
      rcases ih _ _ _ _ _ hm with h | ⟨h1, h2⟩
      · exact Or.inl h
      · exact Or.inr ⟨by simp [h1], h2⟩

lemma aggLoop_all_ok (platform : String) (mods : List ModuleSpec)
    (hok : ∀ m ∈ mods, platform ∈ m.platforms → moduleOk m) :
    ∀ (body plain : String) (notices : List String) (invoked : List ModuleSpec),
      (aggLoop platform mods body plain notices invoked).notices =
        notices ++ (mods.filter (fun m => !decide (platform ∈ m.platforms))).map
          (fun m => skipNotice m.title platform) ∧
      (aggLoop platform mods body plain notices invoked).invoked =
        invoked ++ mods.filter (fun m => decide (platform ∈ m.platforms)) := by
  induction mods with
  | nil => intro body plain notices invoked; simp [aggLoop]
  | cons m0 rest ih =>
    intro body plain notices invoked
    have hrest : ∀ m ∈ rest, platform ∈ m.platforms → moduleOk m :=
      fun m hm => hok m (by simp [hm])
    by_cases hp : platform ∈ m0.platforms
    · obtain ⟨rows, out, hgd, hmt⟩ := hok m0 (by simp) hp
      rw [aggLoop_cons_ok platform m0 rest body plain notices invoked rows out hp hgd hmt]
      obtain ⟨hn, hi⟩ := ih hrest (body ++ out.1) (plain ++ out.2) notices (invoked ++ [m0])
      refine ⟨?_, ?_⟩
      · rw [hn]
        simp [List.filter_cons, hp]
      · rw [hi]
        simp [List.filter_cons, hp]
    · rw [aggLoop_cons_skip platform m0 rest body plain notices invoked hp]
      obtain ⟨hn, hi⟩ := ih hrest body plain
        (notices ++ [skipNotice m0.title platform]) invoked
      refine ⟨?_, ?_⟩
      · rw [hn]
        simp [List.filter_cons, hp]
      · rw [hi]
        simp [List.filter_cons, hp]

/-- Counterexample for C1: the aggregation loop contains no exception
handling at all, so when module `A` (supported, `get_data` raising `boom`)
precedes module `B` (supported, well-formed rows), the run aborts with the
exception: no failure notice is recorded (`notices = []`) and no final
body/plain exists (`result` is the error, so module `B`'s section appears
nowhere), contradicting both the failure-notice and the isolation parts of
the claim. -/
theorem agg_no_isolation_cex :
    (runAgg "linux" [⟨"A", ["h"], ["linux"], Except.error "boom"⟩,
                     ⟨"B", ["h"], ["linux"], Except.ok [[PyVal.str "x"]]⟩]).notices
      = [] ∧
    (runAgg "linux" [⟨"A", ["h"], ["linux"], Except.error "boom"⟩,
                     ⟨"B", ["h"], ["linux"], Except.ok [[PyVal.str "x"]]⟩]).result
      = Except.error "boom" :=
  ⟨rfl, rfl⟩

/-- C1 as amended: an exception from one applicable module's `get_data()`
aborts the aggregation loop at that module: the run's result is that very
exception, no failure notice is recorded, the modules after it are never
processed (the trace is independent of `rest`), and no `(body, plain)`
report is produced. -/
theorem agg_abort_on_error (platform : String) (m : ModuleSpec)
    (rest : List ModuleSpec) (body plain : String) (notices : List String)
    (invoked : List ModuleSpec) (e : String)
    (hp : platform ∈ m.platforms) (he : m.get_data = Except.error e) :
    aggLoop platform (m :: rest) body plain notices invoked =
      ⟨notices, invoked ++ [m], Except.error e⟩ :=
  aggLoop_cons_error platform m rest body plain notices invoked e hp he

/-- Witness for C1's amended theorem: a failing supported module aborts the
loop mid-run, leaving the notices as they were. -/
theorem agg_abort_on_error_witness :
    aggLoop "linux"
        [⟨"M", ["h"], ["linux"], Except.error "apt"⟩,
         ⟨"L", ["h"], ["linux"], Except.ok []⟩] "b" "p" ["n"]
        [⟨"D", ["h"], ["linux"], Except.ok []⟩] =
      ⟨["n"], [⟨"D", ["h"], ["linux"], Except.ok []⟩,
               ⟨"M", ["h"], ["linux"], Except.error "apt"⟩], Except.error "apt"⟩ :=
  agg_abort_on_error "linux" ⟨"M", ["h"], ["linux"], Except.error "apt"⟩
    [⟨"L", ["h"], ["linux"], Except.ok []⟩] "b" "p" ["n"]
    [⟨"D", ["h"], ["linux"], Except.ok []⟩] "apt" (by decide) rfl

/-- Counterexample for C9: platform gating only holds of modules the loop
reaches.  Module `B` is darwin-only, hence not supported on `linux`, yet the
run that hits module `A`'s exception first emits NO skip notice for `B`
(the claim demands exactly one). -/
theorem agg_skip_notice_cex :
    decide ("linux" ∈ (["darwin"] : List String)) = false ∧
    (runAgg "linux" [⟨"A", ["h"], ["linux"], Except.error "boom"⟩,
                     ⟨"B", ["h"], ["darwin"], Except.ok []⟩]).notices = [] :=
  ⟨rfl, rfl⟩

/-- C9 as amended: (1) unconditionally, a module not supporting the current
platform never has its `get_data()` consumed by the run; (2) provided every
applicable module's run succeeds, the emitted skip notices are exactly one
notice `[title] module not supported on platform` per unsupported module in
registration order, and the invoked modules are exactly the supported ones
in registration order. -/
theorem agg_gating (platform : String) (mods : List ModuleSpec) :
    (∀ m : ModuleSpec, platform ∉ m.platforms →
      m ∉ (runAgg platform mods).invoked) ∧
    ((∀ m ∈ mods, platform ∈ m.platforms → moduleOk m) →
      (runAgg platform mods).notices =
        (mods.filter (fun m => !decide (platform ∈ m.platforms))).map
          (fun m => skipNotice m.title platform) ∧
      (runAgg platform mods).invoked =
        mods.filter (fun m => decide (platform ∈ m.platforms))) := by
  constructor
  · intro m hns hmem
    rcases aggLoop_invoked_mem platform mods "" "" [] [] m hmem with h | ⟨-, hp⟩
    · simp at h
    · exact hns hp
  · intro hok
    obtain ⟨hn, hi⟩ := aggLoop_all_ok platform mods hok "" "" [] []
    exact ⟨by rw [runAgg, hn]; simp, by rw [runAgg, hi]; simp⟩

/-- Witness for C9's amended theorem: on `linux`, a supported module that
renders and a darwin-only module produce exactly one skip notice (for the
darwin-only module) and exactly one invocation (of the supported one). -/
theorem agg_gating_witness :
    (runAgg "linux" [⟨"D", ["h"], ["linux", "darwin"], Except.ok [[PyVal.str "x"]]⟩,
                     ⟨"M", ["h"], ["darwin"], Except.ok []⟩]).notices =
      [skipNotice "M" "linux"] ∧
    (runAgg "linux" [⟨"D", ["h"], ["linux", "darwin"], Except.ok [[PyVal.str "x"]]⟩,
                     ⟨"M", ["h"], ["darwin"], Except.ok []⟩]).invoked =
      [⟨"D", ["h"], ["linux", "darwin"], Except.ok [[PyVal.str "x"]]⟩] ∧
    (⟨"M", ["h"], ["darwin"], Except.ok []⟩ : ModuleSpec) ∉
      (runAgg "linux" [⟨"D", ["h"], ["linux", "darwin"], Except.ok [[PyVal.str "x"]]⟩,
                       ⟨"M", ["h"], ["darwin"], Except.ok []⟩]).invoked := by
  have h := (agg_gating "linux"
    [⟨"D", ["h"], ["linux", "darwin"], Except.ok [[PyVal.str "x"]]⟩,
     ⟨"M", ["h"], ["darwin"], Except.ok []⟩]).2 ?_
  · refine ⟨h.1.trans (by rfl), h.2.trans (by rfl), ?_⟩
    exact (agg_gating "linux"
      [⟨"D", ["h"], ["linux", "darwin"], Except.ok [[PyVal.str "x"]]⟩,
       ⟨"M", ["h"], ["darwin"], Except.ok []⟩]).1
      ⟨"M", ["h"], ["darwin"], Except.ok []⟩ (by decide)
  · intro m hm hp
    rcases List.mem_cons.mp hm with h1 | h1
    · subst h1
      exact ⟨[[PyVal.str "x"]], _, rfl, rfl⟩
    · rcases List.mem_singleton.mp h1 with h2
      rw [h2] at hp
      exact absurd hp (by decide)

/-- Sanity check mirroring the repository's own `LogModuleTest.test_get_data`:
nine rotated compressed files of sizes 400..3600 plus a 3-byte live log, all
grouped under `logfile`, yield the unit test's expected rows. -/
example :
    LogModule.get_data 1000 10
      [⟨"logfile.log.1.gz", 400, true⟩, ⟨"logfile.log.2.gz", 800, true⟩,
       ⟨"logfile.log.3.gz", 1200, true⟩, ⟨"logfile.log.4.gz", 1600, true⟩,
       ⟨"logfile.log.5.gz", 2000, true⟩, ⟨"logfile.log.6.gz", 2400, true⟩,
       ⟨"logfile.log.7.gz", 2800, true⟩, ⟨"logfile.log.8.gz", 3200, true⟩,
       ⟨"logfile.log.9.gz", 3600, true⟩, ⟨"logfile.log", 3, true⟩] =
      [[PyVal.str "logfile", PyVal.int 10, PyVal.str "17.6 KiB"],
       [PyVal.str "Total", PyVal.int 10, PyVal.str "17.6 KiB"]] := by decide
